import Mathlib

/-
Verification of the chart-repository index command (`pkg/cmd/repo_index.go`).

The command orchestrator `index(dir, url, mergeTo, json)` is embedded as a pure
function over an explicit environment supplying the results of its external
calls (directory scan, stat of the merge target, load of the existing index,
and per-path write outcomes).  The run records the step sequence it performed
and the file writes it attempted, so that claims about ordering, error
propagation and output files can be stated and proved.

The `repo` package operations (`NewIndexFile`, `LoadIndexFile`, `Merge`,
`SortEntries`, the writers) live outside this repository's sources; they are
modelled from the specification where their behaviour matters (merge collision
resolution, per-name version sorting) and abstracted into the environment where
only their success or failure matters (scan, load, write).
-/

set_option autoImplicit false

namespace HelmRepoIndex

/-- Modelled from the spec: one discoverable version of a chart
(`CatalogEntry`, spec section 3): name, semantic-version string, content
digest, download locations, creation timestamp and the removed tombstone. -/
structure ChartVersion where
  name : String
  version : String
  digest : String
  urls : List String
  created : Nat
  removed : Bool
deriving DecidableEq

/-- Modelled from the spec: the full index (`Catalog`, spec section 3):
format tag, generation timestamp, and entries mapping chart name to its
list of versions (association-list representation of the map). -/
structure IndexFile where
  apiVersion : String
  generated : Nat
  entries : List (String × List ChartVersion)
deriving DecidableEq

/-- Lookup of a chart name in the entries map. -/
def lookupName : List (String × List ChartVersion) → String → Option (List ChartVersion)
  | [], _ => none
  | (k, vs) :: rest, n => if k = n then some vs else lookupName rest n

/-- The version list stored under a chart name (empty when absent). -/
def IndexFile.get (i : IndexFile) (n : String) : List ChartVersion :=
  (lookupName i.entries n).getD []

/-- Whether the index holds an entry with the given name and version
(the collision key used by the merge). -/
def IndexFile.hasVersion (i : IndexFile) (n v : String) : Bool :=
  (i.get n).any (fun e => e.version == v)

/-- The entry stored under a given (name, version) coordinate, when present. -/
def findEntry (i : IndexFile) (n v : String) : Option ChartVersion :=
  (i.get n).find? (fun e => e.version == v)

/-- Modelled from the spec: `NewCatalog` creates an empty catalog
(spec section 3, lifecycle); `repo.NewIndexFile()` in the command. -/
def NewIndexFile : IndexFile :=
  { apiVersion := "v1", generated := 0, entries := [] }

/-- Append an entry to the version list of its chart name, creating the
name key at the end when absent (map insertion, order of keys preserved). -/
def addToEntries (es : List (String × List ChartVersion)) (cv : ChartVersion) :
    List (String × List ChartVersion) :=
  match es with
  | [] => [(cv.name, [cv])]
  | (n, vs) :: rest =>
    if n = cv.name then (n, vs ++ [cv]) :: rest
    else (n, vs) :: addToEntries rest cv

/-- Add one entry to an index under its chart name. -/
def addEntry (i : IndexFile) (cv : ChartVersion) : IndexFile :=
  { i with entries := addToEntries i.entries cv }

/-- One step of the merge: an entry of the existing catalog is copied in
unless the (name, version) coordinate is already present. -/
def mergeOne (i : IndexFile) (cv : ChartVersion) : IndexFile :=
  if i.hasVersion cv.name cv.version then i else addEntry i cv

/-- Merge all versions of one existing chart name into the local catalog. -/
def mergeList (i : IndexFile) (cvs : List ChartVersion) : IndexFile :=
  cvs.foldl mergeOne i

/-- Modelled from the spec (section 4.3): `merge(local, existing)` returns the
local catalog extended with every (name, version) of the existing catalog that
the local one lacks, copied unchanged; on a collision the local entry is kept
and the existing one discarded.  `i.Merge(i2)` in the command. -/
def IndexFile.mergeWith (i f : IndexFile) : IndexFile :=
  f.entries.foldl (fun acc p => mergeList acc p.2) i

/-- Modelled from the spec: parse a version string into numeric components. -/
def parseVersion (s : String) : List Nat :=
  (s.splitOn ".").map (fun p => p.toNat?.getD 0)

/-- Lexicographic strictly-greater test on numeric version components. -/
def versionGt : List Nat → List Nat → Bool
  | [], _ => false
  | _ :: _, [] => true
  | a :: as, b :: bs =>
    if b < a then true else if a < b then false else versionGt as bs

/-- Insert an entry into a version-descending list. -/
def insertDesc (cv : ChartVersion) : List ChartVersion → List ChartVersion
  | [] => [cv]
  | x :: xs =>
    if versionGt (parseVersion cv.version) (parseVersion x.version) then
      cv :: x :: xs
    else x :: insertDesc cv xs

/-- Sort a version list newest-first. -/
def sortDesc (l : List ChartVersion) : List ChartVersion :=
  l.foldr insertDesc []

/-- Modelled from the spec (section 4.5): `SortEntries` sorts every chart
name's version list by version descending. -/
def IndexFile.sortEntries (i : IndexFile) : IndexFile :=
  { i with entries := i.entries.map (fun p => (p.1, sortDesc p.2)) }

/-- The two supported output encodings of `writeIndexFile`. -/
inductive Encoding where
  | yaml
  | json
deriving DecidableEq

/-- The encoding selected by the boolean `json` flag. -/
def encodingOf (json : Bool) : Encoding :=
  if json then Encoding.json else Encoding.yaml

/-- A file write attempted by the run: target path, catalog written,
encoding used, and whether the write succeeded. -/
structure WriteEvent where
  path : String
  file : IndexFile
  enc : Encoding
  ok : Bool
deriving DecidableEq

/-- The pipeline steps of the orchestrator (spec section 4.5 state machine). -/
inductive Step where
  | scan
  | build
  | merge
  | sort
  | write
deriving DecidableEq

/-- Environment resolving the run's external calls: the result of
`repo.IndexDirectory(dir, url)`, whether `os.Stat(mergeTo)` reported
`fs.ErrNotExist`, the result of `repo.LoadIndexFile(mergeTo)`, and the
outcome of writing to each path (`none` means the write succeeds). -/
structure Env where
  scanResult : Except String IndexFile
  statNotExist : Bool
  loadResult : Except String IndexFile
  writeError : String → Option String

/-- Modelled from `filepath.Join(dir, "index.yaml")` on an absolute `dir`. -/
def joinPath (dir name : String) : String :=
  dir ++ "/" ++ name

/-- Embeds `writeIndexFile` (repo_index.go lines 117-122): the JSON writer
when the `json` flag is set, the YAML writer otherwise; the write outcome
is resolved by the environment, and the attempt is recorded. -/
def writeIndexFile (env : Env) (i : IndexFile) (out : String) (json : Bool) :
    Except String Unit × WriteEvent :=
  match env.writeError out with
  | none => (Except.ok (), ⟨out, i, encodingOf json, true⟩)
  | some e => (Except.error e, ⟨out, i, encodingOf json, false⟩)

deriving instance DecidableEq for Except

/-- Everything a run produces: its returned result, the pipeline steps it
performed, and the file writes it attempted, in order. -/
structure RunResult where
  result : Except String Unit
  steps : List Step
  writes : List WriteEvent
deriving DecidableEq

/-- Embeds `index` (repo_index.go lines 92-115).  The output path is
`dir/index.yaml`.  The directory is scanned and built into a catalog; on a
scan error the run returns it at once.  With a non-empty merge target, a
missing target yields a fresh empty index (eagerly written to the target,
result discarded), a present target is loaded (a load error returns
`merge failed: ` wrapping the cause), and the existing index is merged into
the local one.  The catalog is then sorted and written to the output path. -/
def index (env : Env) (dir url mergeTo : String) (json : Bool) : RunResult :=
  let out := joinPath dir "index.yaml"
  match env.scanResult with
  | Except.error e => { result := Except.error e, steps := [Step.scan], writes := [] }
  | Except.ok i0 =>
    let phase : Except String (IndexFile × List Step × List WriteEvent) :=
      if mergeTo ≠ "" then
        if env.statNotExist then
          let i2 := NewIndexFile
          let w0 := (writeIndexFile env i2 mergeTo json).2
          Except.ok (i0.mergeWith i2, [Step.merge], [w0])
        else
          match env.loadResult with
          | Except.error e => Except.error ("merge failed: " ++ e)
          | Except.ok i2 => Except.ok (i0.mergeWith i2, [Step.merge], [])
      else Except.ok (i0, [], [])
    match phase with
    | Except.error e =>
      { result := Except.error e, steps := [Step.scan, Step.build], writes := [] }
    | Except.ok (i1, st, ws) =>
      let s := i1.sortEntries
      let (r, w1) := writeIndexFile env s out json
      { result := r
        steps := [Step.scan, Step.build] ++ st ++ [Step.sort, Step.write]
        writes := ws ++ [w1] }

/-- The last write attempted on a given path during a run. -/
def lastWriteTo (ws : List WriteEvent) (p : String) : Option WriteEvent :=
  (ws.filter (fun w => w.path == p)).getLast?

/-! ### Concrete sample data for witnesses -/

/-- Sample entry: the locally scanned foo 1.0.0 with digest B. -/
def fooLocal : ChartVersion :=
  ⟨"foo", "1.0.0", "B", ["foo-1.0.0.tgz"], 5, false⟩

/-- Sample colliding entry from the previously published catalog, digest A. -/
def fooOld : ChartVersion :=
  ⟨"foo", "1.0.0", "A", ["old/foo-1.0.0.tgz"], 1, false⟩

/-- Sample entry present only in the previously published catalog. -/
def barOld : ChartVersion :=
  ⟨"bar", "0.1.0", "C", ["bar-0.1.0.tgz"], 1, false⟩

/-- Sample freshly scanned catalog. -/
def sampleLocal : IndexFile := ⟨"v1", 7, [("foo", [fooLocal])]⟩

/-- Sample previously published catalog, colliding with the local one on
(foo, 1.0.0). -/
def sampleOld : IndexFile := ⟨"v1", 2, [("foo", [fooOld]), ("bar", [barOld])]⟩

/-- Environment where the scan succeeds, the merge target is present and
loads, and every write succeeds. -/
def envLoaded : Env :=
  ⟨Except.ok sampleLocal, false, Except.ok sampleOld, fun _ => none⟩

/-- Environment where the merge target is present but fails to load. -/
def envLoadFail : Env :=
  ⟨Except.ok sampleLocal, false, Except.error "bad", fun _ => none⟩

/-- Environment where the merge target path does not exist. -/
def envMissing : Env :=
  ⟨Except.ok sampleLocal, true, Except.error "unused", fun _ => none⟩

/-- Environment where the merge target is missing and the eager write of the
empty bootstrap index to it fails, while the main output write succeeds. -/
def envBootFail : Env :=
  ⟨Except.ok sampleLocal, true, Except.error "unused",
   fun p => if p = "old.yaml" then some "disk full" else none⟩

/-- Environment where the directory scan fails. -/
def envScanFail : Env :=
  ⟨Except.error "scan broke", false, Except.ok sampleOld, fun _ => none⟩

/-- The same environment with the merge target reported missing. -/
def withMissing (env : Env) : Env := { env with statNotExist := true }

/-- The same environment with the merge target present and loading as an
explicitly empty catalog. -/
def withEmptyLoad (env : Env) : Env :=
  { env with statNotExist := false, loadResult := Except.ok NewIndexFile }

/-! ### Basic facts about the write primitive and the merge -/

theorem writeIndexFile_snd (env : Env) (i : IndexFile) (out : String) (json : Bool) :
    (writeIndexFile env i out json).2 =
      ⟨out, i, encodingOf json, (env.writeError out).isNone⟩ := by
  unfold writeIndexFile
  cases h : env.writeError out <;> simp

theorem writeIndexFile_fst_ok (env : Env) (i : IndexFile) (out : String) (json : Bool)
    (h : env.writeError out = none) :
    (writeIndexFile env i out json).1 = Except.ok () := by
  unfold writeIndexFile
  rw [h]

theorem writeIndexFile_fst_err (env : Env) (i : IndexFile) (out : String) (json : Bool)
    (e : String) (h : env.writeError out = some e) :
    (writeIndexFile env i out json).1 = Except.error e := by
  unfold writeIndexFile
  rw [h]

theorem lookupName_addToEntries (es : List (String × List ChartVersion)) (cv : ChartVersion)
    (n : String) :
    lookupName (addToEntries es cv) n =
      if cv.name = n then some (((lookupName es n).getD []) ++ [cv])
      else lookupName es n := by
  induction es with
  | nil =>
    by_cases h : cv.name = n <;> simp [addToEntries, lookupName, h]
  | cons hd rest ih =>
    obtain ⟨k, vs⟩ := hd
    by_cases hk : k = cv.name
    · subst hk
      by_cases hn : cv.name = n
      · subst hn
        simp [addToEntries, lookupName]
      · simp [addToEntries, lookupName, hn]
    · by_cases hn : k = n
      · subst hn
        have hcv : ¬ cv.name = k := fun h => hk h.symm
        simp [addToEntries, lookupName, hk, hcv]
      · simp [addToEntries, lookupName, hk, hn, ih]

theorem get_addEntry (i : IndexFile) (cv : ChartVersion) (n : String) :
    (addEntry i cv).get n = if cv.name = n then i.get n ++ [cv] else i.get n := by
  unfold addEntry IndexFile.get
  rw [lookupName_addToEntries]
  by_cases h : cv.name = n <;> simp [h]

theorem find?_append_of_any {α : Type} (l₁ l₂ : List α) (p : α → Bool)
    (h : l₁.any p = true) : (l₁ ++ l₂).find? p = l₁.find? p := by
  rw [List.find?_append]
  obtain ⟨x, hx, hpx⟩ := List.any_eq_true.mp h
  obtain ⟨y, hy⟩ := Option.isSome_iff_exists.mp (List.find?_isSome.mpr ⟨x, hx, hpx⟩)
  rw [hy]
  rfl

theorem hasVersion_addEntry (i : IndexFile) (cv : ChartVersion) (n v : String)
    (h : i.hasVersion n v = true) : (addEntry i cv).hasVersion n v = true := by
  unfold IndexFile.hasVersion at h ⊢
  rw [get_addEntry]
  by_cases hn : cv.name = n <;> simp [hn, List.any_append, h]

theorem findEntry_addEntry (i : IndexFile) (cv : ChartVersion) (n v : String)
    (h : i.hasVersion n v = true) :
    findEntry (addEntry i cv) n v = findEntry i n v := by
  unfold findEntry
  rw [get_addEntry]
  by_cases hn : cv.name = n
  · simp only [hn, if_pos]
    exact find?_append_of_any _ _ _ h
  · simp [hn]

theorem mergeOne_preserves (i : IndexFile) (cv : ChartVersion) (n v : String)
    (h : i.hasVersion n v = true) :
    (mergeOne i cv).hasVersion n v = true ∧
      findEntry (mergeOne i cv) n v = findEntry i n v := by
  unfold mergeOne
  by_cases hc : i.hasVersion cv.name cv.version = true
  · simp [hc, h]
  · simp only [hc, if_neg, Bool.not_eq_true] at *
    simp [hc, hasVersion_addEntry i cv n v h, findEntry_addEntry i cv n v h]

theorem mergeList_preserves (cvs : List ChartVersion) (i : IndexFile) (n v : String)
    (h : i.hasVersion n v = true) :
    (mergeList i cvs).hasVersion n v = true ∧
      findEntry (mergeList i cvs) n v = findEntry i n v := by
  induction cvs generalizing i with
  | nil => exact ⟨h, rfl⟩
  | cons cv rest ih =>
    obtain ⟨h1, h2⟩ := mergeOne_preserves i cv n v h
    obtain ⟨h3, h4⟩ := ih (mergeOne i cv) h1
    exact ⟨h3, by rw [mergeList] at *; simpa [h2] using h4⟩

theorem mergeFold_preserves (ps : List (String × List ChartVersion)) (i : IndexFile)
    (n v : String) (h : i.hasVersion n v = true) :
    (ps.foldl (fun acc p => mergeList acc p.2) i).hasVersion n v = true ∧
      findEntry (ps.foldl (fun acc p => mergeList acc p.2) i) n v = findEntry i n v := by
  induction ps generalizing i with
  | nil => exact ⟨h, rfl⟩
  | cons p rest ih =>
    obtain ⟨h1, h2⟩ := mergeList_preserves p.2 i n v h
    obtain ⟨h3, h4⟩ := ih (mergeList i p.2) h1
    exact ⟨h3, by simpa [h2] using h4⟩

/-- Merge priority: an entry already present in the local catalog survives the
merge untouched; the colliding existing entry never replaces it. -/
theorem mergeWith_priority (i f : IndexFile) (n v : String)
    (h : i.hasVersion n v = true) :
    findEntry (i.mergeWith f) n v = findEntry i n v :=
  (mergeFold_preserves f.entries i n v h).2

/-! ### Branch characterizations of the orchestrator -/

theorem index_scanError (env : Env) (dir url mergeTo : String) (json : Bool)
    (e : String) (h : env.scanResult = Except.error e) :
    index env dir url mergeTo json =
      { result := Except.error e, steps := [Step.scan], writes := [] } := by
  unfold index
  rw [h]

theorem index_noMerge (env : Env) (dir url : String) (json : Bool) (i : IndexFile)
    (h : env.scanResult = Except.ok i) :
    index env dir url "" json =
      { result := (writeIndexFile env i.sortEntries (joinPath dir "index.yaml") json).1
        steps := [Step.scan, Step.build, Step.sort, Step.write]
        writes := [(writeIndexFile env i.sortEntries (joinPath dir "index.yaml") json).2] } := by
  unfold index
  rw [h]
  simp

theorem index_mergeMissing (env : Env) (dir url mergeTo : String) (json : Bool)
    (i : IndexFile) (hm : mergeTo ≠ "") (hs : env.statNotExist = true)
    (h : env.scanResult = Except.ok i) :
    index env dir url mergeTo json =
      { result := (writeIndexFile env (i.mergeWith NewIndexFile).sortEntries
                    (joinPath dir "index.yaml") json).1
        steps := [Step.scan, Step.build, Step.merge, Step.sort, Step.write]
        writes := [(writeIndexFile env NewIndexFile mergeTo json).2,
                   (writeIndexFile env (i.mergeWith NewIndexFile).sortEntries
                     (joinPath dir "index.yaml") json).2] } := by
  unfold index
  rw [h]
  simp [hm, hs]

theorem index_mergeLoadError (env : Env) (dir url mergeTo : String) (json : Bool)
    (i : IndexFile) (e : String) (hm : mergeTo ≠ "") (hs : env.statNotExist = false)
    (h : env.scanResult = Except.ok i) (hl : env.loadResult = Except.error e) :
    index env dir url mergeTo json =
      { result := Except.error ("merge failed: " ++ e)
        steps := [Step.scan, Step.build]
        writes := [] } := by
  unfold index
  rw [h]
  simp [hm, hs, hl]

theorem index_mergeLoaded (env : Env) (dir url mergeTo : String) (json : Bool)
    (i i2 : IndexFile) (hm : mergeTo ≠ "") (hs : env.statNotExist = false)
    (h : env.scanResult = Except.ok i) (hl : env.loadResult = Except.ok i2) :
    index env dir url mergeTo json =
      { result := (writeIndexFile env (i.mergeWith i2).sortEntries
                    (joinPath dir "index.yaml") json).1
        steps := [Step.scan, Step.build, Step.merge, Step.sort, Step.write]
        writes := [(writeIndexFile env (i.mergeWith i2).sortEntries
                    (joinPath dir "index.yaml") json).2] } := by
  unfold index
  rw [h]
  simp [hm, hs, hl]

theorem lastWriteTo_append_last (ws : List WriteEvent) (w : WriteEvent) (p : String)
    (h : w.path = p) : lastWriteTo (ws ++ [w]) p = some w := by
  unfold lastWriteTo
  rw [List.filter_append]
  simp [h]

theorem lastWriteTo_single (w : WriteEvent) (p : String) (h : w.path = p) :
    lastWriteTo [w] p = some w :=
  lastWriteTo_append_last [] w p h

theorem lastWriteTo_pair (w0 w1 : WriteEvent) (p : String) (h : w1.path = p) :
    lastWriteTo [w0, w1] p = some w1 :=
  lastWriteTo_append_last [w0] w1 p h

/-! ### Claims -/

/-- C1: with a merge target present and loaded, merge receives the freshly
scanned catalog as the local argument and the loaded catalog as the existing
argument; the merged local catalog, sorted, is the last (and only) content
written to the output path; and on any (name, version) collision the local
entry survives the merge unchanged. -/
theorem merge_local_is_authoritative (env : Env) (dir url mergeTo : String) (json : Bool)
    (lcl exst : IndexFile) (hm : mergeTo ≠ "")
    (hscan : env.scanResult = Except.ok lcl)
    (hstat : env.statNotExist = false)
    (hload : env.loadResult = Except.ok exst) :
    lastWriteTo (index env dir url mergeTo json).writes (joinPath dir "index.yaml") =
      some ⟨joinPath dir "index.yaml", (lcl.mergeWith exst).sortEntries, encodingOf json,
            (env.writeError (joinPath dir "index.yaml")).isNone⟩ ∧
    ∀ n v, lcl.hasVersion n v = true →
      findEntry (lcl.mergeWith exst) n v = findEntry lcl n v := by
  constructor
  · rw [index_mergeLoaded env dir url mergeTo json lcl exst hm hstat hscan hload]
    have h := writeIndexFile_snd env (lcl.mergeWith exst).sortEntries
      (joinPath dir "index.yaml") json
    have : [(writeIndexFile env (lcl.mergeWith exst).sortEntries
        (joinPath dir "index.yaml") json).2] =
        [] ++ [(writeIndexFile env (lcl.mergeWith exst).sortEntries
          (joinPath dir "index.yaml") json).2] := rfl
    rw [this, lastWriteTo_append_last _ _ _ (by rw [h])]
    rw [h]
  · exact fun n v h => mergeWith_priority lcl exst n v h

/-- Witness for C1 at concrete data: the collision on (foo, 1.0.0) keeps the
local digest-B entry, and the merged, sorted catalog is what lands at
d/index.yaml. -/
theorem merge_local_is_authoritative_witness :
    findEntry (sampleLocal.mergeWith sampleOld) "foo" "1.0.0" = some fooLocal ∧
    (lastWriteTo (index envLoaded "d" "" "old.yaml" false).writes (joinPath "d" "index.yaml") =
      some ⟨joinPath "d" "index.yaml", (sampleLocal.mergeWith sampleOld).sortEntries,
            encodingOf false, (envLoaded.writeError (joinPath "d" "index.yaml")).isNone⟩ ∧
    ∀ n v, sampleLocal.hasVersion n v = true →
      findEntry (sampleLocal.mergeWith sampleOld) n v = findEntry sampleLocal n v) :=
  ⟨by decide,
   merge_local_is_authoritative envLoaded "d" "" "old.yaml" false sampleLocal sampleOld
     (by decide) rfl rfl rfl⟩

/-- C2: a missing merge target is replaced by a fresh empty catalog and the
run proceeds through merge, sort and write; its result and its final write to
the output path are identical to those of the same run whose merge target
loads as an explicitly empty catalog. -/
theorem missing_target_same_as_empty (env : Env) (dir url mergeTo : String) (json : Bool)
    (i : IndexFile) (hm : mergeTo ≠ "") (hscan : env.scanResult = Except.ok i) :
    (index (withMissing env) dir url mergeTo json).result =
      (index (withEmptyLoad env) dir url mergeTo json).result ∧
    (index (withMissing env) dir url mergeTo json).steps =
      [Step.scan, Step.build, Step.merge, Step.sort, Step.write] ∧
    lastWriteTo (index (withMissing env) dir url mergeTo json).writes
        (joinPath dir "index.yaml") =
      lastWriteTo (index (withEmptyLoad env) dir url mergeTo json).writes
        (joinPath dir "index.yaml") := by
  rw [index_mergeMissing (withMissing env) dir url mergeTo json i hm rfl hscan,
    index_mergeLoaded (withEmptyLoad env) dir url mergeTo json i NewIndexFile hm rfl hscan rfl]
  refine ⟨rfl, rfl, ?_⟩
  have hp := writeIndexFile_snd (withMissing env)
    (i.mergeWith NewIndexFile).sortEntries (joinPath dir "index.yaml") json
  have h2 : [(writeIndexFile (withMissing env) NewIndexFile mergeTo json).2,
      (writeIndexFile (withMissing env)
        (i.mergeWith NewIndexFile).sortEntries (joinPath dir "index.yaml") json).2] =
      [(writeIndexFile (withMissing env) NewIndexFile mergeTo json).2] ++
      [(writeIndexFile (withMissing env)
        (i.mergeWith NewIndexFile).sortEntries (joinPath dir "index.yaml") json).2] := rfl
  rw [h2, lastWriteTo_append_last _ _ _ (by rw [hp])]
  have hp2 := writeIndexFile_snd (withEmptyLoad env)
    (i.mergeWith NewIndexFile).sortEntries (joinPath dir "index.yaml") json
  have h3 : [(writeIndexFile (withEmptyLoad env)
        (i.mergeWith NewIndexFile).sortEntries (joinPath dir "index.yaml") json).2] =
      [] ++ [(writeIndexFile (withEmptyLoad env)
        (i.mergeWith NewIndexFile).sortEntries (joinPath dir "index.yaml") json).2] := rfl
  rw [h3, lastWriteTo_append_last _ _ _ (by rw [hp2]), hp, hp2]
  rfl

/-- Witness for C2 at concrete data: the missing-target run and the
empty-catalog run agree on result and on the final output write. -/
theorem missing_target_same_as_empty_witness :
    (index (withMissing envMissing) "d" "" "old.yaml" false).result =
      (index (withEmptyLoad envMissing) "d" "" "old.yaml" false).result ∧
    (index (withMissing envMissing) "d" "" "old.yaml" false).steps =
      [Step.scan, Step.build, Step.merge, Step.sort, Step.write] ∧
    lastWriteTo (index (withMissing envMissing) "d" "" "old.yaml" false).writes
        (joinPath "d" "index.yaml") =
      lastWriteTo (index (withEmptyLoad envMissing) "d" "" "old.yaml" false).writes
        (joinPath "d" "index.yaml") :=
  missing_target_same_as_empty envMissing "d" "" "old.yaml" false sampleLocal
    (by decide) rfl

/-- C3: a present merge target that fails to load aborts the run with the
load error wrapped as `merge failed: `, before any file write is attempted. -/
theorem merge_load_failure_aborts (env : Env) (dir url mergeTo : String) (json : Bool)
    (i : IndexFile) (e : String) (hm : mergeTo ≠ "") (hstat : env.statNotExist = false)
    (hscan : env.scanResult = Except.ok i) (hload : env.loadResult = Except.error e) :
    (index env dir url mergeTo json).result = Except.error ("merge failed: " ++ e) ∧
    (index env dir url mergeTo json).writes = [] := by
  rw [index_mergeLoadError env dir url mergeTo json i e hm hstat hscan hload]
  exact ⟨rfl, rfl⟩

/-- Witness for C3 at concrete data: the run fails with the wrapped message
and writes nothing. -/
theorem merge_load_failure_aborts_witness :
    (index envLoadFail "d" "" "old.yaml" false).result =
      Except.error ("merge failed: " ++ "bad") ∧
    (index envLoadFail "d" "" "old.yaml" false).writes = [] :=
  merge_load_failure_aborts envLoadFail "d" "" "old.yaml" false sampleLocal "bad"
    (by decide) rfl rfl rfl

/-- C4: every run either succeeds and its final state on the output path is
one complete successful write, or it fails and no successful write to the
output path occurred; the only successful write a run can leave behind
without reaching success is the empty bootstrap index at the merge target
when that target did not exist. -/
theorem no_partial_output (env : Env) (dir url mergeTo : String) (json : Bool) :
    ((∃ u, (index env dir url mergeTo json).result = Except.ok u) →
      ∃ w, lastWriteTo (index env dir url mergeTo json).writes (joinPath dir "index.yaml") =
          some w ∧ w.ok = true) ∧
    (∀ e, (index env dir url mergeTo json).result = Except.error e →
      ∀ w ∈ (index env dir url mergeTo json).writes, w.ok = true →
        w.path = mergeTo ∧ w.file = NewIndexFile ∧ env.statNotExist = true) ∧
    (∀ w ∈ (index env dir url mergeTo json).writes,
      w.path = joinPath dir "index.yaml" ∨
        (w.path = mergeTo ∧ w.file = NewIndexFile ∧ env.statNotExist = true)) := by
  cases hscan : env.scanResult with
  | error e =>
    simp only [index_scanError env dir url mergeTo json e hscan]
    refine ⟨fun hu => ?_, fun e' he' w hw => ?_, fun w hw => ?_⟩
    · obtain ⟨u, hu⟩ := hu
      cases hu
    · cases hw
    · cases hw
  | ok i =>
    by_cases hm : mergeTo = ""
    · subst hm
      simp only [index_noMerge env dir url json i hscan]
      have hsnd := writeIndexFile_snd env i.sortEntries (joinPath dir "index.yaml") json
      cases hwe : env.writeError (joinPath dir "index.yaml") with
      | none =>
        have hfst := writeIndexFile_fst_ok env i.sortEntries (joinPath dir "index.yaml")
          json hwe
        refine ⟨fun _ => ?_, fun e' he' w hw hok => ?_, fun w hw => ?_⟩
        · refine ⟨(writeIndexFile env i.sortEntries (joinPath dir "index.yaml") json).2,
            lastWriteTo_single _ _ (by rw [hsnd]), ?_⟩
          rw [hsnd, hwe]
          rfl
        · rw [hfst] at he'
          cases he'
        · rw [List.mem_singleton] at hw
          subst hw
          left
          rw [hsnd]
      | some e' =>
        have hfst := writeIndexFile_fst_err env i.sortEntries (joinPath dir "index.yaml")
          json e' hwe
        refine ⟨fun hu => ?_, fun e'' he'' w hw hok => ?_, fun w hw => ?_⟩
        · obtain ⟨u, hu⟩ := hu
          rw [hfst] at hu
          cases hu
        · rw [List.mem_singleton] at hw
          subst hw
          rw [hsnd, hwe] at hok
          cases hok
        · rw [List.mem_singleton] at hw
          subst hw
          left
          rw [hsnd]
    · cases hstat : env.statNotExist with
      | true =>
        simp only [index_mergeMissing env dir url mergeTo json i hm hstat hscan]
        have hsnd0 := writeIndexFile_snd env NewIndexFile mergeTo json
        have hsnd := writeIndexFile_snd env (i.mergeWith NewIndexFile).sortEntries
          (joinPath dir "index.yaml") json
        refine ⟨fun _ => ?_, fun e' he' w hw hok => ?_, fun w hw => ?_⟩
        · refine ⟨(writeIndexFile env (i.mergeWith NewIndexFile).sortEntries
              (joinPath dir "index.yaml") json).2,
            lastWriteTo_pair _ _ _ (by rw [hsnd]), ?_⟩
          obtain ⟨u, hu⟩ := ‹∃ u, _›
          cases hwe : env.writeError (joinPath dir "index.yaml") with
          | none => rw [hsnd, hwe]; rfl
          | some e' =>
            rw [writeIndexFile_fst_err env _ _ json e' hwe] at hu
            cases hu
        · rcases List.mem_cons.mp hw with h | h
          · subst h
            rw [hsnd0]
            exact ⟨rfl, rfl, by trivial⟩
          · rw [List.mem_singleton] at h
            subst h
            cases hwe : env.writeError (joinPath dir "index.yaml") with
            | none =>
              rw [writeIndexFile_fst_ok env _ _ json hwe] at he'
              cases he'
            | some e'' =>
              rw [hsnd, hwe] at hok
              cases hok
        · rcases List.mem_cons.mp hw with h | h
          · subst h
            right
            rw [hsnd0]
            exact ⟨rfl, rfl, by trivial⟩
          · rw [List.mem_singleton] at h
            subst h
            left
            rw [hsnd]
      | false =>
        cases hload : env.loadResult with
        | error e' =>
          simp only [index_mergeLoadError env dir url mergeTo json i e' hm hstat hscan hload]
          refine ⟨fun hu => ?_, fun e'' he'' w hw => ?_, fun w hw => ?_⟩
          · obtain ⟨u, hu⟩ := hu
            cases hu
          · cases hw
          · cases hw
        | ok i2 =>
          simp only [index_mergeLoaded env dir url mergeTo json i i2 hm hstat hscan hload]
          have hsnd := writeIndexFile_snd env (i.mergeWith i2).sortEntries
            (joinPath dir "index.yaml") json
          refine ⟨fun hu => ?_, fun e'' he'' w hw hok => ?_, fun w hw => ?_⟩
          · refine ⟨(writeIndexFile env (i.mergeWith i2).sortEntries
                (joinPath dir "index.yaml") json).2,
              lastWriteTo_single _ _ (by rw [hsnd]), ?_⟩
            obtain ⟨u, hu⟩ := hu
            cases hwe : env.writeError (joinPath dir "index.yaml") with
            | none => rw [hsnd, hwe]; rfl
            | some e' =>
              rw [writeIndexFile_fst_err env _ _ json e' hwe] at hu
              cases hu
          · rw [List.mem_singleton] at hw
            subst hw
            cases hwe : env.writeError (joinPath dir "index.yaml") with
            | none =>
              rw [writeIndexFile_fst_ok env _ _ json hwe] at he''
              cases he''
            | some e' =>
              rw [hsnd, hwe] at hok
              cases hok
          · rw [List.mem_singleton] at hw
            subst hw
            left
            rw [hsnd]

/-- Witness for C4 at concrete data: the successful merge run leaves exactly
the complete sorted catalog at d/index.yaml. -/
theorem no_partial_output_witness :
    ∃ w, lastWriteTo (index envLoaded "d" "" "old.yaml" false).writes
        (joinPath "d" "index.yaml") = some w ∧ w.ok = true :=
  (no_partial_output envLoaded "d" "" "old.yaml" false).1 ⟨(), rfl⟩

/-- C5 counterexample: in a run whose bootstrap write of the empty index to
the missing merge target fails, the failed write is recorded yet the run
returns success — an error arising during the run was discarded, refuting the
claim that no error is ever discarded. -/
theorem discarded_bootstrap_error :
    (∃ w ∈ (index envBootFail "d" "" "old.yaml" false).writes, w.ok = false) ∧
    (index envBootFail "d" "" "old.yaml" false).result = Except.ok () := by
  decide

/-- C5 amended: every scan error and final-write error propagates unchanged,
and every merge-load error propagates wrapped with the `merge failed: `
context; the sole exception is the eager bootstrap write of the empty index to
a missing merge target, whose error is discarded and cannot affect the run's
result. -/
theorem error_propagation (env : Env) (dir url mergeTo : String) (json : Bool) :
    (∀ e, env.scanResult = Except.error e →
      (index env dir url mergeTo json).result = Except.error e) ∧
    (∀ e i, env.scanResult = Except.ok i → mergeTo ≠ "" → env.statNotExist = false →
      env.loadResult = Except.error e →
      (index env dir url mergeTo json).result = Except.error ("merge failed: " ++ e)) ∧
    (∀ e i, env.scanResult = Except.ok i →
      (mergeTo = "" ∨ env.statNotExist = true ∨ ∃ i2, env.loadResult = Except.ok i2) →
      env.writeError (joinPath dir "index.yaml") = some e →
      (index env dir url mergeTo json).result = Except.error e) ∧
    (∀ i, env.scanResult = Except.ok i → mergeTo ≠ "" → env.statNotExist = true →
      env.writeError (joinPath dir "index.yaml") = none →
      (index env dir url mergeTo json).result = Except.ok ()) := by
  refine ⟨fun e he => ?_, fun e i hscan hm hstat hload => ?_,
    fun e i hscan hcase hwe => ?_, fun i hscan hm hstat hwe => ?_⟩
  · rw [index_scanError env dir url mergeTo json e he]
  · rw [index_mergeLoadError env dir url mergeTo json i e hm hstat hscan hload]
  · rcases hcase with hm | hstat | ⟨i2, hload⟩
    · subst hm
      rw [index_noMerge env dir url json i hscan]
      exact writeIndexFile_fst_err env _ _ json e hwe
    · by_cases hm : mergeTo = ""
      · subst hm
        rw [index_noMerge env dir url json i hscan]
        exact writeIndexFile_fst_err env _ _ json e hwe
      · rw [index_mergeMissing env dir url mergeTo json i hm hstat hscan]
        exact writeIndexFile_fst_err env _ _ json e hwe
    · by_cases hm : mergeTo = ""
      · subst hm
        rw [index_noMerge env dir url json i hscan]
        exact writeIndexFile_fst_err env _ _ json e hwe
      · cases hstat : env.statNotExist with
        | true =>
          rw [index_mergeMissing env dir url mergeTo json i hm hstat hscan]
          exact writeIndexFile_fst_err env _ _ json e hwe
        | false =>
          rw [index_mergeLoaded env dir url mergeTo json i i2 hm hstat hscan hload]
          exact writeIndexFile_fst_err env _ _ json e hwe
  · rw [index_mergeMissing env dir url mergeTo json i hm hstat hscan]
    exact writeIndexFile_fst_ok env _ _ json hwe

/-- Witness for the amended C5 at concrete data: the run whose bootstrap
write fails (while the final write succeeds) returns success, exercising the
discarded-error exception concretely. -/
theorem error_propagation_witness :
    (index envBootFail "d" "" "old.yaml" false).result = Except.ok () :=
  (error_propagation envBootFail "d" "" "old.yaml" false).2.2.2 sampleLocal rfl
    (by decide) rfl (by decide)

/-- C6: the steps a run performs are always an ordered, repetition-free
subsequence of scan, build, merge, sort, write; in a run that reaches success
the merge step occurs exactly when a non-empty merge target was given; and
whenever the write step occurs the sort step occurred too (before it, by the
subsequence order). -/
theorem pipeline_order (env : Env) (dir url mergeTo : String) (json : Bool) :
    (index env dir url mergeTo json).steps.Sublist
      [Step.scan, Step.build, Step.merge, Step.sort, Step.write] ∧
    ((∃ u, (index env dir url mergeTo json).result = Except.ok u) →
      (Step.merge ∈ (index env dir url mergeTo json).steps ↔ mergeTo ≠ "")) ∧
    (Step.write ∈ (index env dir url mergeTo json).steps →
      Step.sort ∈ (index env dir url mergeTo json).steps) := by
  cases hscan : env.scanResult with
  | error e =>
    simp only [index_scanError env dir url mergeTo json e hscan]
    refine ⟨by decide, fun hu => ?_, fun hw => ?_⟩
    · obtain ⟨u, hu⟩ := hu
      cases hu
    · simp at hw
  | ok i =>
    by_cases hm : mergeTo = ""
    · subst hm
      simp only [index_noMerge env dir url json i hscan]
      exact ⟨by decide, fun _ => ⟨fun h => absurd h (by decide), fun h => absurd rfl h⟩,
        fun _ => by decide⟩
    · cases hstat : env.statNotExist with
      | true =>
        simp only [index_mergeMissing env dir url mergeTo json i hm hstat hscan]
        exact ⟨by decide, fun _ => ⟨fun _ => hm, fun _ => by decide⟩, fun _ => by decide⟩
      | false =>
        cases hload : env.loadResult with
        | error e =>
          simp only [index_mergeLoadError env dir url mergeTo json i e hm hstat hscan hload]
          refine ⟨by decide, fun hu => ?_, fun hw => ?_⟩
          · obtain ⟨u, hu⟩ := hu
            cases hu
          · simp at hw
        | ok i2 =>
          simp only [index_mergeLoaded env dir url mergeTo json i i2 hm hstat hscan hload]
          exact ⟨by decide, fun _ => ⟨fun _ => hm, fun _ => by decide⟩, fun _ => by decide⟩

/-- Witness for C6 at concrete data: the successful merge run performed the
merge step, matching its non-empty merge target. -/
theorem pipeline_order_witness :
    Step.merge ∈ (index envLoaded "d" "" "old.yaml" false).steps ↔
      ("old.yaml" : String) ≠ "" :=
  (pipeline_order envLoaded "d" "" "old.yaml" false).2.1 ⟨(), rfl⟩

/-- C7: whenever a run reaches its write step, the file it writes last is at
the fixed path dir/index.yaml — the source directory joined with the constant
filename — independently of the url, merge and json options (which the
statement quantifies over). -/
theorem output_path_fixed (env : Env) (dir url mergeTo : String) (json : Bool)
    (h : Step.write ∈ (index env dir url mergeTo json).steps) :
    ∃ w, (index env dir url mergeTo json).writes.getLast? = some w ∧
      w.path = joinPath dir "index.yaml" ∧
      joinPath dir "index.yaml" = dir ++ "/" ++ "index.yaml" := by
  cases hscan : env.scanResult with
  | error e =>
    rw [index_scanError env dir url mergeTo json e hscan] at h
    simp at h
  | ok i =>
    by_cases hm : mergeTo = ""
    · subst hm
      simp only [index_noMerge env dir url json i hscan]
      exact ⟨(writeIndexFile env i.sortEntries (joinPath dir "index.yaml") json).2,
        List.getLast?_concat [], by rw [writeIndexFile_snd], rfl⟩
    · cases hstat : env.statNotExist with
      | true =>
        simp only [index_mergeMissing env dir url mergeTo json i hm hstat hscan]
        exact ⟨(writeIndexFile env (i.mergeWith NewIndexFile).sortEntries
            (joinPath dir "index.yaml") json).2,
          List.getLast?_concat [(writeIndexFile env NewIndexFile mergeTo json).2],
          by rw [writeIndexFile_snd], rfl⟩
      | false =>
        cases hload : env.loadResult with
        | error e =>
          rw [index_mergeLoadError env dir url mergeTo json i e hm hstat hscan hload] at h
          simp at h
        | ok i2 =>
          simp only [index_mergeLoaded env dir url mergeTo json i i2 hm hstat hscan hload]
          exact ⟨(writeIndexFile env (i.mergeWith i2).sortEntries
              (joinPath dir "index.yaml") json).2,
            List.getLast?_concat [], by rw [writeIndexFile_snd], rfl⟩

/-- Witness for C7 at concrete data: the merge run's last write is at
d/index.yaml. -/
theorem output_path_fixed_witness :
    ∃ w, (index envLoaded "d" "" "old.yaml" false).writes.getLast? = some w ∧
      w.path = joinPath "d" "index.yaml" ∧
      joinPath "d" "index.yaml" = "d" ++ "/" ++ "index.yaml" :=
  output_path_fixed envLoaded "d" "" "old.yaml" false (by decide)

/-- C8: every write a run performs — the main output and the bootstrap index
alike — uses the JSON encoding exactly when the json flag is set and the YAML
encoding otherwise. -/
theorem write_encoding_follows_flag (env : Env) (dir url mergeTo : String) (json : Bool) :
    ∀ w ∈ (index env dir url mergeTo json).writes,
      w.enc = if json then Encoding.json else Encoding.yaml := by
  intro w hw
  cases hscan : env.scanResult with
  | error e =>
    rw [index_scanError env dir url mergeTo json e hscan] at hw
    cases hw
  | ok i =>
    by_cases hm : mergeTo = ""
    · subst hm
      rw [index_noMerge env dir url json i hscan] at hw
      rw [List.mem_singleton] at hw
      subst hw
      rw [writeIndexFile_snd]
      rfl
    · cases hstat : env.statNotExist with
      | true =>
        rw [index_mergeMissing env dir url mergeTo json i hm hstat hscan] at hw
        rcases List.mem_cons.mp hw with h | h
        · subst h
          rw [writeIndexFile_snd]
          rfl
        · rw [List.mem_singleton] at h
          subst h
          rw [writeIndexFile_snd]
          rfl
      | false =>
        cases hload : env.loadResult with
        | error e =>
          rw [index_mergeLoadError env dir url mergeTo json i e hm hstat hscan hload] at hw
          cases hw
        | ok i2 =>
          rw [index_mergeLoaded env dir url mergeTo json i i2 hm hstat hscan hload] at hw
          rw [List.mem_singleton] at hw
          subst hw
          rw [writeIndexFile_snd]
          rfl

/-- Witness for C8 at concrete data: with the json flag set, the run's output
write uses the JSON encoding. -/
theorem write_encoding_follows_flag_witness :
    (⟨joinPath "d" "index.yaml", sampleLocal.sortEntries, Encoding.json, true⟩ : WriteEvent)
        ∈ (index envLoaded "d" "" "" true).writes ∧
    (⟨joinPath "d" "index.yaml", sampleLocal.sortEntries, Encoding.json, true⟩
        : WriteEvent).enc = if true then Encoding.json else Encoding.yaml :=
  ⟨by decide, write_encoding_follows_flag envLoaded "d" "" "" true _ (by decide)⟩

/-- C9: when the merge target is missing, the outcome of the eager bootstrap
write is discarded: even when that write fails, the run still merges, sorts
and writes the main output, and succeeds when the rest succeeds. -/
theorem bootstrap_result_ignored (env : Env) (dir url mergeTo : String) (json : Bool)
    (i : IndexFile) (e : String) (hm : mergeTo ≠ "") (hstat : env.statNotExist = true)
    (hscan : env.scanResult = Except.ok i) (hfail : env.writeError mergeTo = some e)
    (hok : env.writeError (joinPath dir "index.yaml") = none) :
    (index env dir url mergeTo json).result = Except.ok () ∧
    (index env dir url mergeTo json).steps =
      [Step.scan, Step.build, Step.merge, Step.sort, Step.write] ∧
    ∃ w, lastWriteTo (index env dir url mergeTo json).writes (joinPath dir "index.yaml") =
        some w ∧ w.ok = true := by
  simp only [index_mergeMissing env dir url mergeTo json i hm hstat hscan]
  refine ⟨writeIndexFile_fst_ok env _ _ json hok, by trivial,
    (writeIndexFile env (i.mergeWith NewIndexFile).sortEntries
      (joinPath dir "index.yaml") json).2,
    lastWriteTo_pair _ _ _ (by rw [writeIndexFile_snd]), ?_⟩
  rw [writeIndexFile_snd, hok]
  rfl

/-- Witness for C9 at concrete data: the bootstrap write to old.yaml fails
with a disk error, yet the run completes all five steps and succeeds. -/
theorem bootstrap_result_ignored_witness :
    (index envBootFail "d" "" "old.yaml" false).result = Except.ok () ∧
    (index envBootFail "d" "" "old.yaml" false).steps =
      [Step.scan, Step.build, Step.merge, Step.sort, Step.write] ∧
    ∃ w, lastWriteTo (index envBootFail "d" "" "old.yaml" false).writes
        (joinPath "d" "index.yaml") = some w ∧ w.ok = true :=
  bootstrap_result_ignored envBootFail "d" "" "old.yaml" false sampleLocal "disk full"
    (by decide) rfl rfl (by decide) (by decide)

/-- C10: the bootstrap empty index written to a missing merge target uses the
same caller-selected encoding as the final output write. -/
theorem bootstrap_encoding_matches (env : Env) (dir url mergeTo : String) (json : Bool)
    (i : IndexFile) (hm : mergeTo ≠ "") (hstat : env.statNotExist = true)
    (hscan : env.scanResult = Except.ok i) :
    ∃ wb wf, (index env dir url mergeTo json).writes = [wb, wf] ∧
      wb.path = mergeTo ∧ wb.file = NewIndexFile ∧
      wb.enc = encodingOf json ∧ wf.enc = encodingOf json ∧
      wf.path = joinPath dir "index.yaml" := by
  refine ⟨(writeIndexFile env NewIndexFile mergeTo json).2,
    (writeIndexFile env (i.mergeWith NewIndexFile).sortEntries
      (joinPath dir "index.yaml") json).2, ?_, ?_, ?_, ?_, ?_, ?_⟩
  · rw [index_mergeMissing env dir url mergeTo json i hm hstat hscan]
  all_goals rw [writeIndexFile_snd]

/-- Witness for C10 at concrete data: with the json flag set, both the
bootstrap write and the output write use the JSON encoding. -/
theorem bootstrap_encoding_matches_witness :
    ∃ wb wf, (index envMissing "d" "" "old.yaml" true).writes = [wb, wf] ∧
      wb.path = "old.yaml" ∧ wb.file = NewIndexFile ∧
      wb.enc = encodingOf true ∧ wf.enc = encodingOf true ∧
      wf.path = joinPath "d" "index.yaml" :=
  bootstrap_encoding_matches envMissing "d" "" "old.yaml" true sampleLocal
    (by decide) rfl rfl

end HelmRepoIndex
